import Mathlib

/-!
Verification development for the stock-price dashboard script
(`streamlit2/main.py`).  The script loads a CSV per selected company,
normalizes column labels with `col.strip().lower()`, checks for the
`date` and `close` columns, parses and sorts by date, filters by a
date-range slider, renders line/bar/comparison charts, and renders a
forecast view with a mean-absolute-error metric.

The embedding below is a shallow, purely functional model of that
script.  Dates are calendar dates (the CSV `date` values carry no
time-of-day component, per the external-interface contract), modelled
as rationals together with the closing prices, so a data frame cell is
a rational number.  Pandas data frames become `Frame` values, boolean
mask row selection becomes `maskSelect`, `sort_values("date")` becomes
an insertion sort by date, and the streamlit render of one interaction
becomes the pure function `render`.
-/

/-- One step of Python's `str.strip()`: drop ASCII whitespace from both
ends of a character list. -/
def stripList (l : List Char) : List Char :=
  ((l.dropWhile Char.isWhitespace).reverse.dropWhile Char.isWhitespace).reverse

/-- Column-label normalization `col.strip().lower()` (main.py line 38),
modelled character-wise so that it evaluates inside the kernel. -/
def normalizeLabel (s : String) : String :=
  ⟨(stripList s.data).map Char.toLower⟩

/-- A pandas data frame: column labels plus rows of numeric cells. -/
structure Frame where
  cols : List String
  rows : List (List ℚ)
deriving Repr, DecidableEq

/-- The normalized column labels of a frame
(`[col.strip().lower() for col in df.columns]`). -/
def normCols (f : Frame) : List String :=
  f.cols.map normalizeLabel

/-- The frame after the column-renaming assignment
`df.columns = [col.strip().lower() for col in df.columns]`. -/
def normalizeFrame (f : Frame) : Frame :=
  ⟨normCols f, f.rows⟩

/-- Index of the first column with the given label; `df[name]` succeeds
exactly when this is `some`. -/
def labelIdx (name : String) : List String → Option Nat
  | [] => none
  | c :: cs => if c = name then some 0 else (labelIdx name cs).map (· + 1)

/-- The values of column `name` (`df[name]`); empty when the label is
absent (the callers below only use it after a presence check). -/
def colVals (f : Frame) (name : String) : List ℚ :=
  match labelIdx name f.cols with
  | some i => f.rows.map (fun r => r.getD i 0)
  | none => []

/-- One row of a prepared price series: a (date, close) pair. -/
structure PRow where
  date : ℚ
  close : ℚ
deriving Repr, DecidableEq

/-- `df.sort_values("date")`: sort the rows by ascending date. -/
def sortByDate (rows : List PRow) : List PRow :=
  List.insertionSort (fun a b => a.date ≤ b.date) rows

/-- The loader (main.py lines 35-43): normalize the column labels, and
when both `date` and `close` are present, project each row to its
(date, close) cells and sort ascending by date.  `pd.to_datetime` is
the identity here because dates are already modelled as numbers. -/
def loadSeries (f : Frame) : Option (List PRow) :=
  match labelIdx "date" (normCols f), labelIdx "close" (normCols f) with
  | some di, some ci =>
      some (sortByDate (f.rows.map (fun r => ⟨r.getD di 0, r.getD ci 0⟩)))
  | _, _ => none

/-- Pandas boolean-mask row selection `df[mask]`: keep the rows whose
mask entry is `true`.  This allocates a fresh list; the input list is
untouched, which is the model of "must not mutate the input". -/
def maskSelect {α : Type} : List α → List Bool → List α
  | [], _ => []
  | _ :: _, [] => []
  | a :: as, b :: bs => if b then a :: maskSelect as bs else maskSelect as bs

/-- The elementwise mask `(df["date"] >= start) & (df["date"] <= end)`
(main.py lines 63-64). -/
def rangeMask (rows : List PRow) (s e : ℚ) : List Bool :=
  rows.map (fun r => decide (s ≤ r.date) && decide (r.date ≤ e))

/-- The date-range filter `df_filtered` (main.py lines 63-64): select
the rows whose date lies in the inclusive interval [s, e]. -/
def filterRange (rows : List PRow) (s e : ℚ) : List PRow :=
  maskSelect rows (rangeMask rows s e)

/-- `df["date"].min().date()` (main.py line 59): the least date of the
series; the `.date()` truncation is the identity because the dates are
calendar dates. -/
def minDate : List PRow → ℚ
  | [] => 0
  | r :: rs => rs.foldl (fun m x => min m x.date) r.date

/-- `df["date"].max().date()` (main.py line 60). -/
def maxDate : List PRow → ℚ
  | [] => 0
  | r :: rs => rs.foldl (fun m x => max m x.date) r.date

/- ### Basic lemmas about mask selection and the range filter -/

theorem maskSelect_map_eq_filter {α : Type} (p : α → Bool) (l : List α) :
    maskSelect l (l.map p) = l.filter p := by
  induction l with
  | nil => rfl
  | cons a as ih =>
      by_cases h : p a = true
      · simp [maskSelect, List.filter_cons, h, ih]
      · simp only [Bool.not_eq_true] at h
        simp [maskSelect, List.filter_cons, h, ih]

theorem filterRange_eq_filter (rows : List PRow) (s e : ℚ) :
    filterRange rows s e
      = rows.filter (fun r => decide (s ≤ r.date) && decide (r.date ≤ e)) :=
  maskSelect_map_eq_filter _ rows

theorem foldl_min_le_init (l : List PRow) :
    ∀ a : ℚ, l.foldl (fun m x => min m x.date) a ≤ a := by
  induction l with
  | nil => intro a; simp
  | cons y ys ih =>
      intro a
      exact le_trans (ih (min a y.date)) (min_le_left _ _)

theorem foldl_min_le_mem (l : List PRow) :
    ∀ a : ℚ, ∀ x ∈ l, l.foldl (fun m y => min m y.date) a ≤ x.date := by
  induction l with
  | nil => intro a x hx; cases hx
  | cons y ys ih =>
      intro a x hx
      rcases List.mem_cons.mp hx with h | h
      · subst h
        exact le_trans (foldl_min_le_init ys (min a x.date)) (min_le_right _ _)
      · exact ih (min a y.date) x h

theorem foldl_max_ge_init (l : List PRow) :
    ∀ a : ℚ, a ≤ l.foldl (fun m x => max m x.date) a := by
  induction l with
  | nil => intro a; simp
  | cons y ys ih =>
      intro a
      exact le_trans (le_max_left _ _) (ih (max a y.date))

theorem foldl_max_ge_mem (l : List PRow) :
    ∀ a : ℚ, ∀ x ∈ l, x.date ≤ l.foldl (fun m y => max m y.date) a := by
  induction l with
  | nil => intro a x hx; cases hx
  | cons y ys ih =>
      intro a x hx
      rcases List.mem_cons.mp hx with h | h
      · subst h
        exact le_trans (le_max_right _ _) (foldl_max_ge_init ys (max a x.date))
      · exact ih (max a y.date) x h

theorem minDate_le_of_mem (rows : List PRow) (r : PRow) (hr : r ∈ rows) :
    minDate rows ≤ r.date := by
  cases rows with
  | nil => cases hr
  | cons y ys =>
      rcases List.mem_cons.mp hr with h | h
      · subst h; exact foldl_min_le_init ys r.date
      · exact foldl_min_le_mem ys y.date r h

theorem le_maxDate_of_mem (rows : List PRow) (r : PRow) (hr : r ∈ rows) :
    r.date ≤ maxDate rows := by
  cases rows with
  | nil => cases hr
  | cons y ys =>
      rcases List.mem_cons.mp hr with h | h
      · subst h; exact foldl_max_ge_init ys r.date
      · exact foldl_max_ge_mem ys y.date r h

/-- C1: the date-range filter is a sublist of its input (so relative
order is preserved and nothing is duplicated), and a row belongs to the
output exactly when it belongs to the input and its date lies in the
inclusive interval [s, e].  The embedding is a pure function, so the
input series is left untouched. -/
theorem filterRange_inclusive_exact (rows : List PRow) (s e : ℚ)
    (h : s ≤ e) (r : PRow) :
    (filterRange rows s e).Sublist rows ∧
      (r ∈ filterRange rows s e ↔ r ∈ rows ∧ s ≤ r.date ∧ r.date ≤ e) := by
  rw [filterRange_eq_filter]
  refine ⟨List.filter_sublist rows, ?_⟩
  simp [List.mem_filter]

/-- Closed instance of `filterRange_inclusive_exact` at a concrete
series and range. -/
theorem filterRange_inclusive_exact_witness :
    (1 : ℚ) ≤ 3 ∧
      ((filterRange [⟨1, 5⟩, ⟨2, 6⟩, ⟨4, 7⟩] 1 3).Sublist
          [⟨1, 5⟩, ⟨2, 6⟩, ⟨4, 7⟩] ∧
        (⟨2, 6⟩ ∈ filterRange [⟨1, 5⟩, ⟨2, 6⟩, ⟨4, 7⟩] 1 3 ↔
          (⟨2, 6⟩ : PRow) ∈ [⟨1, 5⟩, ⟨2, 6⟩, ⟨4, 7⟩] ∧
            (1 : ℚ) ≤ (2 : ℚ) ∧ (2 : ℚ) ≤ 3)) :=
  ⟨by norm_num,
    filterRange_inclusive_exact [⟨1, 5⟩, ⟨2, 6⟩, ⟨4, 7⟩] 1 3 (by norm_num) ⟨2, 6⟩⟩

/-- C2: filtering a series by its own full min/max date range returns
the series unchanged, in content and order. -/
theorem filterRange_full_span_identity (rows : List PRow)
    (h : rows ≠ []) :
    filterRange rows (minDate rows) (maxDate rows) = rows := by
  rw [filterRange_eq_filter, List.filter_eq_self]
  intro r hr
  simp only [Bool.and_eq_true, decide_eq_true_eq]
  exact ⟨minDate_le_of_mem rows r hr, le_maxDate_of_mem rows r hr⟩

/-- Closed instance of `filterRange_full_span_identity` at a concrete
series. -/
theorem filterRange_full_span_identity_witness :
    ([⟨1, 5⟩, ⟨3, 7⟩] : List PRow) ≠ [] ∧
      filterRange [⟨1, 5⟩, ⟨3, 7⟩] (minDate [⟨1, 5⟩, ⟨3, 7⟩])
          (maxDate [⟨1, 5⟩, ⟨3, 7⟩]) = [⟨1, 5⟩, ⟨3, 7⟩] :=
  ⟨by decide, filterRange_full_span_identity [⟨1, 5⟩, ⟨3, 7⟩] (by decide)⟩

/- ### Lemmas about column lookup and the loader -/

theorem labelIdx_eq_none_iff (name : String) (l : List String) :
    labelIdx name l = none ↔ name ∉ l := by
  induction l with
  | nil => simp [labelIdx]
  | cons c cs ih =>
      by_cases h : c = name
      · subst h; simp [labelIdx]
      · have h' : name ≠ c := fun e => h e.symm
        simp [labelIdx, h, ih, Option.map_eq_none, h']

theorem labelIdx_isSome_of_mem (name : String) (l : List String)
    (h : name ∈ l) : ∃ i, labelIdx name l = some i := by
  cases hidx : labelIdx name l with
  | none => exact absurd h ((labelIdx_eq_none_iff name l).mp hidx)
  | some i => exact ⟨i, rfl⟩

theorem colVals_length (f : Frame) (name : String) (h : name ∈ f.cols) :
    (colVals f name).length = f.rows.length := by
  obtain ⟨i, hi⟩ := labelIdx_isSome_of_mem name f.cols h
  simp [colVals, hi]

instance : IsTotal PRow (fun a b => a.date ≤ b.date) :=
  ⟨fun a b => le_total a.date b.date⟩

instance : IsTrans PRow (fun a b => a.date ≤ b.date) :=
  ⟨fun _ _ _ h1 h2 => le_trans h1 h2⟩

theorem sortByDate_sorted (rows : List PRow) :
    (sortByDate rows).Chain' (fun a b => a.date ≤ b.date) :=
  (List.sorted_insertionSort (fun a b => a.date ≤ b.date) rows).chain'

/-- C3 (amended): whenever the loader succeeds, the resulting series
has monotonically non-decreasing dates. -/
theorem loadSeries_sorted_nondecreasing (f : Frame) (s : List PRow)
    (h : loadSeries f = some s) :
    s.Chain' (fun a b => a.date ≤ b.date) := by
  cases hd : labelIdx "date" (normCols f) with
  | none => simp [loadSeries, hd] at h
  | some di =>
      cases hc : labelIdx "close" (normCols f) with
      | none => simp [loadSeries, hd, hc] at h
      | some ci =>
          simp only [loadSeries, hd, hc, Option.some.injEq] at h
          subst h
          exact sortByDate_sorted _

/-- Closed instance of `loadSeries_sorted_nondecreasing` on a concrete
frame whose rows arrive out of order. -/
theorem loadSeries_sorted_nondecreasing_witness :
    List.Chain' (fun a b => a.date ≤ b.date)
      ([⟨1, 20⟩, ⟨2, 10⟩] : List PRow) :=
  loadSeries_sorted_nondecreasing ⟨["Date", " Close "], [[2, 10], [1, 20]]⟩
    [⟨1, 20⟩, ⟨2, 10⟩] (by decide)

/-- C3 counterexample: the loader does not deduplicate dates.  On a
frame with two rows carrying the same date it succeeds and returns a
series whose dates are not pairwise distinct, refuting the uniqueness
half of the claimed invariant. -/
theorem loadSeries_duplicate_dates_counterexample :
    loadSeries ⟨["Date", "Close"], [[5, 10], [5, 20]]⟩
        = some [⟨5, 10⟩, ⟨5, 20⟩] ∧
      ¬ List.Pairwise (fun a b : PRow => a.date ≠ b.date)
          [⟨5, 10⟩, ⟨5, 20⟩] := by
  constructor
  · decide
  · decide

/- ### Charts (plotly figures reduced to their data content) -/

/-- One plotly trace: a legend name plus the x and y value lists. -/
structure Trace where
  name : String
  xs : List ℚ
  ys : List ℚ
deriving Repr, DecidableEq

def seriesXs (rows : List PRow) : List ℚ := rows.map PRow.date

def seriesYs (rows : List PRow) : List ℚ := rows.map PRow.close

/-- The trace plotting a price series under a legend name. -/
def traceOf (name : String) (rows : List PRow) : Trace :=
  ⟨name, seriesXs rows, seriesYs rows⟩

/-- A figure: its traces and its title. -/
structure Chart where
  traces : List Trace
  title : String
deriving Repr, DecidableEq

/-- Tab 1 (main.py lines 70-74): `px.line(df_filtered, x="date",
y="close", title="Closing Price Over Time")`. -/
def lineChart (rows : List PRow) : Chart :=
  ⟨[traceOf "close" rows], "Closing Price Over Time"⟩

/-- Tab 2 (main.py lines 76-80): the bar chart over the same data. -/
def barChart (rows : List PRow) : Chart :=
  ⟨[traceOf "close" rows], "Closing Price Bar Chart"⟩

/-- The overlay loop of tab 3 (main.py lines 88-99): each selected
secondary entity is read, label-normalized, presence-checked, sorted
and filtered over the same (start, end) range, then added as a named
trace; entities failing the presence check add nothing. -/
def overlayTraces (others : List (String × Frame)) (s e : ℚ) : List Trace :=
  others.filterMap
    (fun p => (loadSeries p.2).map (fun rows => traceOf p.1 (filterRange rows s e)))

/-- Tab 3 (main.py lines 82-100): the primary filtered series, whose
legend label is the selected company name, plus the overlay traces. -/
def compareChart (rows : List PRow) (others : List (String × Frame))
    (s e : ℚ) (sel : String) : Chart :=
  ⟨traceOf sel rows :: overlayTraces others s e, ""⟩

/-- The multiselect options `[k for k in files.keys() if k != selected_company]`
(main.py lines 84-85). -/
def selectorOptions (keys : List String) (sel : String) : List String :=
  keys.filter (fun k => k ≠ sel)

/-- The keys of the `files` dict (main.py lines 11-18). -/
def filesKeys : List String :=
  ["Apple (AAPL)", "Anheuser-Busch (ABNB)", "Google (GOOG)",
   "Amazon (AMZN)", "Boeing (BA)", "American Tower (AMT)"]

/-- The data content of a chart: the (xs, ys) of each trace, in trace
order, independent of legend names and titles. -/
def chartData (c : Chart) : List (List ℚ × List ℚ) :=
  c.traces.map (fun t => (t.xs, t.ys))

def chartXs (c : Chart) : List ℚ := (c.traces.map Trace.xs).flatten

def chartYs (c : Chart) : List ℚ := (c.traces.map Trace.ys).flatten

/-- The axis bounds plotly derives from a figure: the extremes of all
plotted x values and of all plotted y values. -/
def chartBounds (c : Chart) : Option ℚ × Option ℚ × Option ℚ × Option ℚ :=
  ((chartXs c).min?, (chartXs c).max?, (chartYs c).min?, (chartYs c).max?)

/- ### The metric computer and the forecast view -/

/-- Runtime failures of the script's Python dependencies: the KeyError
a missing column raises on `df[name]`, and the ValueError the metric's
consistent-length guard raises. -/
inductive PyErr where
  | keyError
  | lengthMismatch
deriving Repr, DecidableEq

/-- Modelled from the spec: `sklearn.metrics.mean_absolute_error` is
library code outside this repository; per the spec it computes
`(1/n) * Σ|real_i − predicted_i|` over index-aligned sequences. -/
def mae (real pred : List ℚ) : ℚ :=
  (List.zipWith (fun a b => |a - b|) real pred).sum / real.length

/-- Modelled from the spec: the length guard of
`sklearn.metrics.mean_absolute_error` (its consistent-length check),
failing with a `LengthMismatchError`-equivalent condition when the two
sequences differ in length. -/
def maeChecked (real pred : List ℚ) : Except PyErr ℚ :=
  if real.length = pred.length then .ok (mae real pred) else .error .lengthMismatch

/-- The `{mae:.4f}` display (main.py line 132): the value rounded to
four decimal places, represented scaled by 10^4. -/
def fixed4 (q : ℚ) : ℤ := round (q * 10000)

/-- Outcome of the forecast tab when no Python exception escapes. -/
inductive FView where
  | fileMissing
  | schemaError (found : List String)
  | rendered (chart : Chart) (table : Frame) (metric : ℚ)
deriving Repr, DecidableEq

/-- The long-format overlay figure of the forecast tab (main.py lines
114-125): `melt` over value columns `real_close`/`predicted_close`
followed by `px.line(..., color="Type")` yields one trace per value
column over the shared dates. -/
def forecastChart (dts real pred : List ℚ) : Chart :=
  ⟨[⟨"real_close", dts, real⟩, ⟨"predicted_close", dts, pred⟩],
    "Real vs Predicted Closing Prices"⟩

/-- Tab 4 (main.py lines 102-141).  `none` input models an absent
forecast file (warning state).  When the file is present its labels
are normalized, then — before any schema check — the script runs
`forecast_df["date"] = pd.to_datetime(forecast_df["date"])`, which
raises a KeyError when no `date` column exists.  Only then is the
`expected_cols` subset check performed: on failure the error state
carries the columns actually found; on success the chart, the table
and the MAE are produced. -/
def forecastView : Option Frame → Except PyErr FView
  | none => .ok .fileMissing
  | some f0 =>
      match labelIdx "date" (normalizeFrame f0).cols with
      | none => .error .keyError
      | some _ =>
          if "real_close" ∈ (normalizeFrame f0).cols ∧
              "predicted_close" ∈ (normalizeFrame f0).cols ∧
              "date" ∈ (normalizeFrame f0).cols then
            match maeChecked (colVals (normalizeFrame f0) "real_close")
                (colVals (normalizeFrame f0) "predicted_close") with
            | .ok m =>
                .ok (.rendered
                  (forecastChart (colVals (normalizeFrame f0) "date")
                    (colVals (normalizeFrame f0) "real_close")
                    (colVals (normalizeFrame f0) "predicted_close"))
                  (normalizeFrame f0) m)
            | .error e => .error e
          else .ok (.schemaError (normalizeFrame f0).cols)

/- ### The top-level render of one interaction -/

/-- The selection state of one interaction: the primary entity's frame,
its optional forecast frame, the slider range, the comparison
selections (name and frame each), and the selected company name. -/
structure AppInput where
  frame : Frame
  forecast : Option Frame
  rangeStart : ℚ
  rangeEnd : ℚ
  others : List (String × Frame)
  selected : String

/-- What one script run shows: either the blocking error state of the
`else` branch (main.py lines 166-167), or the full page with the four
tab artifacts and the summary total of the filtered closing prices. -/
inductive Render where
  | errorState (msg : String)
  | page (lineFig barFig compareFig : Chart)
      (forecastFig : Except PyErr FView) (totalClose : ℚ)

/-- The whole script as a pure function of the selection state: load
the primary frame; on failure render the blocking error, otherwise
filter by the slider range and build every tab. -/
def render (inp : AppInput) : Render :=
  match loadSeries inp.frame with
  | none => .errorState " Date not found."
  | some srows =>
      let dfF := filterRange srows inp.rangeStart inp.rangeEnd
      .page (lineChart dfF) (barChart dfF)
        (compareChart dfF inp.others inp.rangeStart inp.rangeEnd inp.selected)
        (forecastView inp.forecast)
        (seriesYs dfF).sum

/-- The forecast component of a render, when the page rendered at all. -/
def forecastOf : Render → Option (Except PyErr FView)
  | .errorState _ => none
  | .page _ _ _ fc _ => some fc

/- ### The metric computer -/

theorem sum_zipWith_absSub : ∀ (a b : List ℚ), a.length = b.length →
    (List.zipWith (fun x y => |x - y|) a b).sum
      = ∑ i ∈ Finset.range a.length, |a.getD i 0 - b.getD i 0| := by
  intro a
  induction a with
  | nil => intro b h; simp
  | cons x xs ih =>
      intro b h
      cases b with
      | nil => simp at h
      | cons y ys =>
          have hl : xs.length = ys.length := by simpa using h
          simp only [List.zipWith_cons_cons, List.sum_cons, List.length_cons]
          rw [Finset.sum_range_succ', ih ys hl]
          simp only [List.getD_cons_succ, List.getD_cons_zero]
          ring

/-- C4: on equal-length sequences the metric is the mean of the
index-wise absolute differences; on [10,20,30] vs [12,18,33] it equals
7/3, and the 4-decimal display of that value is 2.3333. -/
theorem mae_formula_and_display (real pred : List ℚ)
    (h : real.length = pred.length) :
    mae real pred
        = (∑ i ∈ Finset.range real.length, |real.getD i 0 - pred.getD i 0|)
          / (real.length : ℚ) ∧
      mae [10, 20, 30] [12, 18, 33] = 7 / 3 ∧
      fixed4 (mae [10, 20, 30] [12, 18, 33]) = 23333 := by
  refine ⟨?_, ?_, ?_⟩
  · unfold mae
    rw [sum_zipWith_absSub real pred h]
  · norm_num [mae, List.zipWith]
  · have h2 : mae [10, 20, 30] [12, 18, 33] = 7 / 3 := by
      norm_num [mae, List.zipWith]
    rw [fixed4, h2]
    norm_num [round_eq]

/-- Closed instance of `mae_formula_and_display` at the spec's own
example sequences. -/
theorem mae_formula_and_display_witness :
    ([10, 20, 30] : List ℚ).length = ([12, 18, 33] : List ℚ).length ∧
      (mae [10, 20, 30] [12, 18, 33]
          = (∑ i ∈ Finset.range ([10, 20, 30] : List ℚ).length,
              |([10, 20, 30] : List ℚ).getD i 0 - ([12, 18, 33] : List ℚ).getD i 0|)
            / (([10, 20, 30] : List ℚ).length : ℚ) ∧
        mae [10, 20, 30] [12, 18, 33] = 7 / 3 ∧
        fixed4 (mae [10, 20, 30] [12, 18, 33]) = 23333) :=
  ⟨by decide, mae_formula_and_display [10, 20, 30] [12, 18, 33] (by decide)⟩

/- ### The forecast tab -/

/-- C5 (code bug): a forecast file that exists but lacks the `date`
column makes the script raise a KeyError at
`forecast_df["date"] = pd.to_datetime(forecast_df["date"])`, before
the `expected_cols` check, so no error state listing the found columns
is rendered and the exception escapes the forecast view. -/
theorem forecastView_missing_date_keyError :
    forecastView (some ⟨["real_close", "predicted_close"], [[1, 2]]⟩)
      = .error .keyError := by
  rfl

/- ### The primary render path -/

theorem loadSeries_eq_none_of_missing (f : Frame)
    (h : ¬ ("date" ∈ normCols f ∧ "close" ∈ normCols f)) :
    loadSeries f = none := by
  rcases not_and_or.mp h with h1 | h1
  · have hd : labelIdx "date" (normCols f) = none :=
      (labelIdx_eq_none_iff _ _).mpr h1
    cases hc : labelIdx "close" (normCols f) <;> simp [loadSeries, hd, hc]
  · have hc : labelIdx "close" (normCols f) = none :=
      (labelIdx_eq_none_iff _ _).mpr h1
    cases hd : labelIdx "date" (normCols f) <;> simp [loadSeries, hd, hc]

/-- C6: when the primary entity's frame lacks the `date` or the `close`
column after label normalization, the whole interaction renders the
blocking error state — no chart of any kind — and the embedding shows
no exception escapes this path. -/
theorem render_missing_column_blocking_error (f : Frame) (fc : Option Frame)
    (s e : ℚ) (others : List (String × Frame)) (sel : String)
    (h : ¬ ("date" ∈ normCols f ∧ "close" ∈ normCols f)) :
    render ⟨f, fc, s, e, others, sel⟩ = .errorState " Date not found." := by
  unfold render
  rw [loadSeries_eq_none_of_missing f h]

/-- Closed instance of `render_missing_column_blocking_error` on a
frame with a `date` column but no `close` column. -/
theorem render_missing_column_blocking_error_witness :
    render ⟨⟨["date", "volume"], [[1, 2]]⟩, none, 0, 9, [], "Boeing (BA)"⟩
      = .errorState " Date not found." :=
  render_missing_column_blocking_error ⟨["date", "volume"], [[1, 2]]⟩ none 0 9
    [] "Boeing (BA)" (by decide)

/- ### The comparison tab -/

/-- C7: with zero comparison entities selected, the comparison chart
plots the same data as the single-entity line chart and plotly derives
the same axis bounds from it. -/
theorem compare_empty_matches_line (rows : List PRow) (s e : ℚ)
    (sel : String) :
    chartData (compareChart rows [] s e sel) = chartData (lineChart rows) ∧
      chartBounds (compareChart rows [] s e sel) = chartBounds (lineChart rows) :=
  ⟨rfl, rfl⟩

/-- C8: a trace appears in the comparison overlay exactly for the
selected secondary entities whose frame loads (normalize, check, sort),
plotted over the same range filter; a secondary frame that fails the
column check is silently skipped; and the selector options never
include the currently selected company. -/
theorem comparison_overlay_behavior (others : List (String × Frame))
    (s e : ℚ) (t : Trace) (n : String) (f : Frame)
    (rest : List (String × Frame)) (keys : List String) (sel : String)
    (hf : loadSeries f = none) :
    (t ∈ overlayTraces others s e ↔
        ∃ p ∈ others, ∃ rows, loadSeries p.2 = some rows ∧
          t = traceOf p.1 (filterRange rows s e)) ∧
      overlayTraces ((n, f) :: rest) s e = overlayTraces rest s e ∧
      sel ∉ selectorOptions keys sel := by
  refine ⟨?_, ?_, ?_⟩
  · simp only [overlayTraces, List.mem_filterMap, Option.map_eq_some']
    constructor
    · rintro ⟨p, hp, rows, hrows, ht⟩
      exact ⟨p, hp, rows, hrows, ht.symm⟩
    · rintro ⟨p, hp, rows, hrows, ht⟩
      exact ⟨p, hp, rows, hrows, ht.symm⟩
  · simp [overlayTraces, List.filterMap_cons, hf]
  · simp [selectorOptions]

/-- Closed instance of `comparison_overlay_behavior`: one loadable
secondary, one secondary without the required columns, and the `files`
keys with Apple selected. -/
theorem comparison_overlay_behavior_witness :
    loadSeries ⟨["volume"], [[3]]⟩ = none ∧
      ((traceOf "Google (GOOG)" (filterRange [⟨1, 10⟩, ⟨2, 20⟩] 0 100) ∈
          overlayTraces
            [("Google (GOOG)", ⟨["date", "close"], [[1, 10], [2, 20]]⟩)] 0 100 ↔
        ∃ p ∈ [("Google (GOOG)",
            (⟨["date", "close"], [[1, 10], [2, 20]]⟩ : Frame))],
          ∃ rows, loadSeries p.2 = some rows ∧
            traceOf "Google (GOOG)" (filterRange [⟨1, 10⟩, ⟨2, 20⟩] 0 100)
              = traceOf p.1 (filterRange rows 0 100)) ∧
      overlayTraces [("Bad", ⟨["volume"], [[3]]⟩)] 0 100
          = overlayTraces [] 0 100 ∧
      "Apple (AAPL)" ∉ selectorOptions filesKeys "Apple (AAPL)") :=
  ⟨by decide,
    comparison_overlay_behavior
      [("Google (GOOG)", ⟨["date", "close"], [[1, 10], [2, 20]]⟩)] 0 100
      (traceOf "Google (GOOG)" (filterRange [⟨1, 10⟩, ⟨2, 20⟩] 0 100))
      "Bad" ⟨["volume"], [[3]]⟩ [] filesKeys "Apple (AAPL)" (by decide)⟩

/- ### The length guard and its reachability -/

/-- C9: the metric computer fails with the length-mismatch condition
whenever the sequences differ in length, and the forecast view — whose
two sequences are columns of the same parsed frame — can never produce
that failure. -/
theorem mae_guard_and_unreachable (a b : List ℚ) (h : a.length ≠ b.length)
    (fc : Option Frame) :
    maeChecked a b = .error .lengthMismatch ∧
      forecastView fc ≠ .error .lengthMismatch := by
  constructor
  · simp [maeChecked, h]
  · cases fc with
    | none => simp [forecastView]
    | some f0 =>
        simp only [forecastView]
        cases hd : labelIdx "date" (normalizeFrame f0).cols with
        | none => simp
        | some i =>
            by_cases hm : ("real_close" ∈ (normalizeFrame f0).cols ∧
                "predicted_close" ∈ (normalizeFrame f0).cols ∧
                "date" ∈ (normalizeFrame f0).cols)
            · rw [if_pos hm]
              have hlen : (colVals (normalizeFrame f0) "real_close").length
                  = (colVals (normalizeFrame f0) "predicted_close").length := by
                rw [colVals_length _ _ hm.1, colVals_length _ _ hm.2.1]
              simp [maeChecked, hlen]
            · rw [if_neg hm]
              simp

/-- Closed instance of `mae_guard_and_unreachable` at mismatched
sequences and the absent-forecast state. -/
theorem mae_guard_and_unreachable_witness :
    ([1] : List ℚ).length ≠ ([] : List ℚ).length ∧
      (maeChecked [1] [] = .error .lengthMismatch ∧
        forecastView none ≠ .error .lengthMismatch) :=
  ⟨by decide, mae_guard_and_unreachable [1] [] (by decide) none⟩

/- ### Independence of the forecast tab from the slider -/

/-- C10: the forecast component of the rendered page does not depend on
the selected date range; only the line, bar, comparison and summary
artifacts are computed from the filtered series. -/
theorem forecast_ignores_date_range (f : Frame) (fc : Option Frame)
    (s1 e1 s2 e2 : ℚ) (others : List (String × Frame)) (sel : String) :
    forecastOf (render ⟨f, fc, s1, e1, others, sel⟩)
      = forecastOf (render ⟨f, fc, s2, e2, others, sel⟩) := by
  unfold render
  cases loadSeries f <;> rfl
